import Mathlib

/-!
# Verification of the `create_dataset.py` ETL pipeline

A shallow embedding of the recipe-dataset preparation pipeline
(`Data Manipulation/create_dataset.py`).  pandas DataFrames are modelled as
Lists of typed rows; where row identity matters for `pd.concat(axis=1)`
alignment, rows carry their integer index explicitly.  Missing values (NaN)
are modelled with `Option`.  Python exceptions are modelled with
`Except Err`.  Numeric cell values parsed by Python `float` are modelled as
rationals (`ℚ`); the pipeline only ever parses and re-emits them, it never
computes with them, so no floating-point rounding is involved in any claim.
-/

namespace CreateDataset

/-- Python exception kinds raised by the pipeline. -/
inductive Err where
  | valueError
  | indexError
  | attributeError
  deriving DecidableEq, Repr

/-! ## Python string helpers

`str.strip(chars)` removes leading and trailing characters belonging to the
given set; `str.split(sep)` splits on a separator substring, with
`"".split(sep) == [""]` (matched by `String.splitOn`). -/

/-- Python `s.strip(chars)`: drop characters of `chars` from both ends. -/
def pyStripChars (chars : List Char) (s : String) : String :=
  let l := s.toList.dropWhile (fun c => chars.contains c)
  String.mk ((l.reverse.dropWhile (fun c => chars.contains c)).reverse)

/-- Python `s.strip()` (whitespace strip, as applied by `int`/`float` too). -/
def pyStripWs (s : String) : String :=
  pyStripChars [' ', '\t', '\n', '\r'] s

/-- Split a character list at every occurrence of `c`
(`"".split(sep) == [""]`, so the empty list yields `[[]]`). -/
def splitOnChar (c : Char) : List Char → List (List Char)
  | [] => [[]]
  | d :: rest =>
    match splitOnChar c rest with
    | [] => [[d]]
    | cur :: rs => if d = c then [] :: cur :: rs else (d :: cur) :: rs

/-- Python `s.split(sep)` for a single-character separator. -/
def pySplitChar (c : Char) (s : String) : List String :=
  (splitOnChar c s.toList).map String.mk

/-- Whether `p` is an initial segment of `l`. -/
def isPre : List Char → List Char → Bool
  | [], _ => true
  | _ :: _, [] => false
  | c :: cs, d :: ds => c = d && isPre cs ds

/-- Left-to-right scan splitting at every non-overlapping occurrence of the
separator `sep` (nonempty).  The first argument is fuel, always called with
more fuel than characters, so the zero-fuel case is unreachable. -/
def splitOnListAux (sep : List Char) : Nat → List Char → List Char → List (List Char)
  | 0, _, acc => [acc.reverse]
  | _ + 1, [], acc => [acc.reverse]
  | fuel + 1, c :: rest, acc =>
    if isPre sep (c :: rest) then
      acc.reverse :: splitOnListAux sep fuel (List.drop (sep.length - 1) rest) []
    else
      splitOnListAux sep fuel rest (c :: acc)

/-- Python `s.split(sep)` for a multi-character separator substring. -/
def pySplitSub (sep : String) (s : String) : List String :=
  (splitOnListAux sep.toList (s.toList.length + 1) s.toList []).map String.mk

/-- Interpret a list of decimal digit characters as a natural number. -/
def digitsToNat (l : List Char) : Nat :=
  l.foldl (fun n c => 10 * n + (c.toNat - '0'.toNat)) 0

/-- Python `int(s)` on the decimal forms occurring in this data set:
optional sign, then at least one digit; surrounding whitespace allowed.
Returns `none` where Python raises `ValueError`. -/
def parseIntOpt (s : String) : Option Int :=
  match (pyStripWs s).toList with
  | '-' :: rest =>
      if rest ≠ [] ∧ rest.all Char.isDigit then some (-(digitsToNat rest : Int)) else none
  | '+' :: rest =>
      if rest ≠ [] ∧ rest.all Char.isDigit then some (digitsToNat rest : Int) else none
  | rest =>
      if rest ≠ [] ∧ rest.all Char.isDigit then some (digitsToNat rest : Int) else none

/-- Python `float(s)` on the plain decimal forms occurring in this data set:
optional sign, digits with an optional single decimal point, at least one
digit overall; surrounding whitespace allowed.  Returns `none` where Python
raises `ValueError` (in particular on the empty string). -/
def parseFloatOpt (s : String) : Option ℚ :=
  let t := (pyStripWs s).toList
  let (neg, body) :=
    match t with
    | '-' :: r => (true, r)
    | '+' :: r => (false, r)
    | r => (false, r)
  match splitOnChar '.' body with
  | [ip] =>
      if ip ≠ [] ∧ ip.all Char.isDigit then
        some (mkRat ((if neg then -1 else 1) * (digitsToNat ip : Int)) 1)
      else none
  | [ip, fp] =>
      if (ip ++ fp) ≠ [] ∧ ip.all Char.isDigit ∧ fp.all Char.isDigit then
        some (mkRat ((if neg then -1 else 1) * (digitsToNat (ip ++ fp) : Int)) (10 ^ fp.length))
      else none
  | _ => none

/-! ## Interaction filter (`filter_interactions`) -/

/-- One row of `RAW_interactions.csv` (columns actually used). -/
structure RawInteraction where
  user_id : Int
  recipe_id : Int
  rating : Int
  review : String
  date : String
  deriving DecidableEq, Repr

/-- An interaction row after `df.drop(columns=['review', 'date'])`. -/
structure Interaction where
  user_id : Int
  recipe_id : Int
  rating : Int
  deriving DecidableEq, Repr

/-- `df.drop(columns=['review', 'date'])`, row-wise. -/
def dropReviewDate (r : RawInteraction) : Interaction :=
  ⟨r.user_id, r.recipe_id, r.rating⟩

/-- Distinct values of `l` in order of first appearance, skipping values
already in `seen`. -/
def dedupFirst (seen : List Int) : List Int → List Int
  | [] => []
  | a :: l => if seen.contains a then dedupFirst seen l else a :: dedupFirst (a :: seen) l

/-- Distinct values of a list in order of first appearance (the key order of
a pandas frequency count, and the iteration order chosen for the ingredient
universe, whose Python `set` order is unspecified; no claim depends on it). -/
def firstOccs (l : List Int) : List Int :=
  dedupFirst [] l

/-- Number of occurrences of `v` in `l` (one entry of `value_counts()`). -/
def countOcc (l : List Int) (v : Int) : Nat :=
  (l.filter (fun x => x = v)).length

/-- Insert a `(value, count)` pair after every pair of count `≥` its own:
descending stable insertion. -/
def insertByCount (p : Int × Nat) : List (Int × Nat) → List (Int × Nat)
  | [] => [p]
  | q :: l => if q.2 < p.2 then p :: q :: l else q :: insertByCount p l

/-- `value_counts()`: pairs `(value, count)` sorted by count descending,
ties kept in order of first appearance (a fixed stable tie-break; pandas
leaves the tie order unspecified and no claim depends on it). -/
def valueCounts (l : List Int) : List (Int × Nat) :=
  ((firstOccs l).map (fun v => (v, countOcc l v))).foldl
    (fun acc p => insertByCount p acc) []

/-- `value_counts().head(k).index`: the `k` most frequent values. -/
def topIds (l : List Int) (k : Nat) : List Int :=
  ((valueCounts l).take k).map (fun p => p.1)

/-- `df['recipe_id'].value_counts().head(100).index`. -/
def top_recipe_ids (df : List Interaction) : List Int :=
  topIds (df.map (fun r => r.recipe_id)) 100

/-- `df['user_id'].value_counts().head(30000).index`. -/
def top_user_ids (df : List Interaction) : List Int :=
  topIds (df.map (fun r => r.user_id)) 30000

/-- `filter_interactions`: drop `review`/`date`, compute the top-100
recipe ids and top-30000 user ids by occurrence count, keep rows whose
`recipe_id` and `user_id` are both in those sets, cast key columns to int
(identity here: the fields are already integers). -/
def filter_interactions (df : List RawInteraction) : List Interaction :=
  let df1 := df.map dropReviewDate
  let tops_r := top_recipe_ids df1
  let tops_u := top_user_ids df1
  df1.filter (fun r => tops_r.contains r.recipe_id && tops_u.contains r.user_id)

/-! ## Nutrition expander (`process_nutrition_column`) -/

/-- Parse of one nutrition cell:
`[float(i) for i in x.strip('[]').split(',')]`. -/
def parseNutrition (x : String) : Option (List ℚ) :=
  (pySplitChar ',' (pyStripChars ['[', ']'] x)).mapM parseFloatOpt

/-- The seven nutrition columns, in the column order passed to
`pd.DataFrame`.  Each cell is optional: `none` models NaN (from padding a
short row, or from outer-concat alignment). -/
structure NutritionRow where
  calories : Option ℚ
  percent_fat : Option ℚ
  percent_sugar : Option ℚ
  percent_sodium : Option ℚ
  percent_protein : Option ℚ
  percent_sat_fat : Option ℚ
  percent_carb : Option ℚ
  deriving DecidableEq, Repr

/-- A nutrition row whose seven cells are all NaN. -/
def nanNutritionRow : NutritionRow :=
  ⟨none, none, none, none, none, none, none⟩

/-- One parsed nutrition list placed into the seven named columns;
positions past the end of the list are NaN (`pd.DataFrame` pads ragged
rows with NaN up to the width of the widest row). -/
def mkNutritionRow (l : List ℚ) : NutritionRow :=
  ⟨l.get? 0, l.get? 1, l.get? 2, l.get? 3, l.get? 4, l.get? 5, l.get? 6⟩

/-- Width of the widest row: the column count `pd.DataFrame` infers from a
list of lists. -/
def maxLen (ls : List (List ℚ)) : Nat :=
  ls.foldr (fun l m => max l.length m) 0

/-- Union of two integer indexes as produced by `pd.concat(axis=1)` on
monotone unique indexes: ascending order, membership in either. -/
def idxUnion (a b : List Nat) : List Nat :=
  (List.range ((a ++ b).foldr max 0 + 1)).filter
    (fun i => a.contains i || b.contains i)

/-- `df['nutrition'].apply(lambda x: [float(i) for i in x.strip('[]').split(',')])`:
parse every (present) nutrition cell in row order, raising `ValueError` at
the first cell that does not parse. -/
def parseAllNutrition {α : Type} :
    List (Nat × α × String) → Except Err (List (Nat × α × List ℚ))
  | [] => .ok []
  | r :: rest =>
    match parseNutrition r.2.2 with
    | none => .error .valueError
    | some l =>
      match parseAllNutrition rest with
      | .error e => .error e
      | .ok rs => .ok ((r.1, r.2.1, l) :: rs)

/-- `process_nutrition_column`.  Rows are `(index, other columns, nutrition
cell)`; the index is the pandas row label, kept by `dropna` and realigned on
by `pd.concat(axis=1)`.  Steps, as in the source: drop rows whose nutrition
is NaN; parse each remaining cell into a list of floats; build a fresh
`RangeIndex` frame of the parsed lists under the seven nutrition column
names (error when the widest row is not exactly 7 wide, NaN-padding any
narrower row); outer-concatenate it with the surviving rows by index; drop
the `nutrition` column. -/
def process_nutrition_column {α : Type} (rows : List (Nat × α × Option String)) :
    Except Err (List (Nat × Option α × NutritionRow)) :=
  let kept := rows.filterMap (fun r => r.2.2.map (fun s => (r.1, r.2.1, s)))
  match parseAllNutrition kept with
  | .error e => .error e
  | .ok parsed =>
    let lists := parsed.map (fun r => r.2.2)
    if lists ≠ [] ∧ maxLen lists ≠ 7 then .error .valueError
    else
      let nutr : List (Nat × NutritionRow) :=
        (List.range lists.length).zip (lists.map mkNutritionRow)
      let outIdx := idxUnion (parsed.map (fun r => r.1)) (nutr.map (fun p => p.1))
      .ok (outIdx.map (fun i =>
        (i, (parsed.find? (fun r => r.1 = i)).map (fun r => r.2.1),
            ((nutr.find? (fun p => p.1 = i)).map (fun p => p.2)).getD nanNutritionRow)))

/-- The nutrition cells that are present (not NaN), in row order. -/
def presentCells {α : Type} (rows : List (Nat × α × Option String)) : List String :=
  rows.filterMap (fun r => r.2.2)

/-! ## Recipe processor (`process_recipe_data`) -/

/-- One row of `PP_recipes.csv` as read. -/
structure PPRecipeFull where
  id : Int
  i : Int
  name_tokens : String
  ingredient_tokens : String
  steps_tokens : String
  techniques : Option String
  ingredient_ids : Option String
  deriving DecidableEq, Repr

/-- A `PP_recipes` row after
`drop(columns=['name_tokens', 'ingredient_tokens', 'steps_tokens'])`. -/
structure RecipeRow where
  id : Int
  i : Int
  techniques : Option String
  ingredient_ids : Option String
  deriving DecidableEq, Repr

/-- The column drop applied to the recipe frame. -/
def dropTokenCols (r : PPRecipeFull) : RecipeRow :=
  ⟨r.id, r.i, r.techniques, r.ingredient_ids⟩

/-- A row of `pd.merge(filtered_df, recipe_df, left_on='recipe_id',
right_on='id', how='left')` (after the `'i' ↦ 'recipe_id_mapped'` rename,
which only changes a column name).  `recipe = none` models the all-NaN right
side of an unmatched left row. -/
structure MergedRow where
  user_id : Int
  recipe_id : Int
  rating : Int
  recipe : Option RecipeRow
  deriving DecidableEq, Repr

/-- The left join of the filtered interactions with the recipe table:
left rows in order, fanned out over every matching right row, one all-NaN
right side when there is no match; the result gets a fresh `RangeIndex`. -/
def leftJoinRecipes (filtered : List Interaction) (recipes : List RecipeRow) :
    List MergedRow :=
  filtered.flatMap (fun a =>
    let ms := recipes.filter (fun b => b.id = a.recipe_id)
    if ms.isEmpty then [⟨a.user_id, a.recipe_id, a.rating, none⟩]
    else ms.map (fun b => ⟨a.user_id, a.recipe_id, a.rating, some b⟩))

/-- The `techniques` cell of a merged row (NaN when the join found no
recipe, or the recipe row itself lacks the value). -/
def techniquesCell (mr : MergedRow) : Option String :=
  mr.recipe.bind (fun b => b.techniques)

/-- The `ingredient_ids` cell of a merged row. -/
def ingredientIdsCell (mr : MergedRow) : Option String :=
  mr.recipe.bind (fun b => b.ingredient_ids)

/-- `[int(i.strip()) for i in x.strip('[]').split(',')]`. -/
def parseTechniques (x : String) : Option (List Int) :=
  (pySplitChar ',' (pyStripChars ['[', ']'] x)).mapM parseIntOpt

/-- `[int(id_str) for id_str in x.strip('[]').split(', ')]`
(note: the separator is the two-character string `", "`). -/
def parseIngredientIds (x : String) : Option (List Int) :=
  (pySplitSub ", " (pyStripChars ['[', ']'] x)).mapM parseIntOpt

/-- The `techniques` `.apply` over the rows surviving `dropna`:
`ValueError` at the first cell that does not parse as a bracketed integer
list. -/
def parseAllTechniques : List (Nat × MergedRow) → Except Err (List (List Int))
  | [] => .ok []
  | p :: rest =>
    match (techniquesCell p.2).bind parseTechniques with
    | none => .error .valueError
    | some l =>
      match parseAllTechniques rest with
      | .error e => .error e
      | .ok ls => .ok (l :: ls)

/-- The `ingredient_ids` parse over the rows surviving `dropna`:
`AttributeError` when a cell is NaN (a float has no `.strip`),
`ValueError` when a piece does not parse as an integer. -/
def parseAllIngredients : List (Nat × MergedRow) → Except Err (List (List Int))
  | [] => .ok []
  | p :: rest =>
    match ingredientIdsCell p.2 with
    | none => .error .attributeError
    | some s =>
      match parseIngredientIds s with
      | none => .error .valueError
      | some l =>
        match parseAllIngredients rest with
        | .error e => .error e
        | .ok ls => .ok (l :: ls)

/-- Width of the widest techniques row (`pd.DataFrame` column count). -/
def maxLenI (ls : List (List Int)) : Nat :=
  ls.foldr (fun l m => max l.length m) 0

/-- `unique_ingredient_ids`: the union of all parsed ingredient ids.  The
source builds a Python `set`, whose iteration order is unspecified; the
model fixes first-appearance order, and no claim depends on the order. -/
def ingredientUniverse (parsed : List (List Int)) : List Int :=
  firstOccs parsed.flatten

/-- The one-hot row built for one recipe's parsed `ingredient_ids` list:
cell 1 for every universe id present in the list, else 0. -/
def onehotRow (univ L : List Int) : List (Int × Nat) :=
  univ.map (fun v => (v, if L.contains v then 1 else 0))

/-- `ingredient_rows`: one one-hot row per (surviving) merged row, in row
order, over the run's ingredient universe. -/
def ingredientRowsOf (parsed : List (List Int)) : List (List (Int × Nat)) :=
  parsed.map (onehotRow (ingredientUniverse parsed))

/-! ## Ingredient name mapper (`filter_ingredient_mapping`) -/

/-- One row of `ingredient_mapping.csv` (columns actually used). -/
structure MappingRow where
  id : Int
  replaced : String
  deriving DecidableEq, Repr

/-- A pandas column label of the one-hot frame: an ingredient id before
renaming, a canonical name string after.  An int label never equals a
string label, exactly as in pandas. -/
inductive Col where
  | id (i : Int)
  | name (s : String)
  deriving DecidableEq, Repr

/-- `int(column)`: the identity on int labels, a decimal parse on string
labels (`ValueError` when it fails). -/
def colKey : Col → Option Int
  | .id i => some i
  | .name s => parseIntOpt s

/-- `df.loc[df['id'] == k, 'replaced'].values[0]` without the final `[0]`:
the `replaced` value of the first row with the given id, if any. -/
def lookupReplaced (rows : List MappingRow) (k : Int) : Option String :=
  ((rows.filter (fun r => r.id = k)).map (fun r => r.replaced)).head?

/-- The first loop of `filter_ingredient_mapping`: concatenate, per column
in order, every mapping row with that column's id. -/
def buildFiltered (allIng : List MappingRow) : List Col → Except Err (List MappingRow)
  | [] => .ok []
  | c :: cs =>
    match colKey c with
    | none => .error .valueError
    | some k =>
      match buildFiltered allIng cs with
      | .error e => .error e
      | .ok rest => .ok (allIng.filter (fun r => r.id = k) ++ rest)

/-- The second loop of `filter_ingredient_mapping`: iterate the column
labels captured at loop entry; for each, look `replaced` up in the filtered
frame (`IndexError` via `.values[0]` when no row matches) and rename every
current column equal to that label. -/
def renameLoop (filtered : List MappingRow) : List Col → List Col → Except Err (List Col)
  | [], cur => .ok cur
  | c :: cs, cur =>
    match colKey c with
    | none => .error .valueError
    | some k =>
      match lookupReplaced filtered k with
      | none => .error .indexError
      | some v => renameLoop filtered cs (cur.map (fun x => if x = c then Col.name v else x))

/-- The column-level computation of `filter_ingredient_mapping`: build the
filtered mapping frame, then run the rename loop over the columns. -/
def filterIngredientMappingCols (allIng : List MappingRow) (cols : List Col) :
    Except Err (List Col) :=
  match buildFiltered allIng cols with
  | .error e => .error e
  | .ok filtered => renameLoop filtered cols cols

/-- `filter_ingredient_mapping` with the caller's DataFrame object made
explicit: a store maps object references to column lists (the rename only
touches column labels, never cells).  `rename(..., inplace=True)` mutates
the argument object, and the function returns that same object, so on
success the store is updated at `ref` and the returned value is `ref`
itself.  On an error the run aborts (renames applied before the failing
column are not observable by any caller). -/
def filter_ingredient_mapping (allIng : List MappingRow) (store : Nat → List Col)
    (ref : Nat) : (Nat → List Col) × Except Err Nat :=
  match filterIngredientMappingCols allIng (store ref) with
  | .error e => (store, .error e)
  | .ok cols' => (fun r => if r = ref then cols' else store r, .ok ref)

/-! ## Assembled recipe processor -/

/-- The non-dropped scalar columns of a processed row coming from the
merge (`user_id`, `recipe_id`, `rating`, `id`, `recipe_id_mapped`). -/
structure ProcessedBase where
  user_id : Int
  recipe_id : Int
  rating : Int
  id : Option Int
  recipe_id_mapped : Option Int
  deriving DecidableEq, Repr

/-- Projection of a merged row onto the retained scalar columns. -/
def mergedToBase (mr : MergedRow) : ProcessedBase :=
  ⟨mr.user_id, mr.recipe_id, mr.rating, mr.recipe.map (fun b => b.id),
   mr.recipe.map (fun b => b.i)⟩

/-- Cell contents of one row of the processed frame.  Each group is
`Option`al because `pd.concat(axis=1)` aligns the groups by row label and
fills missing labels with NaN. -/
structure ProcContent where
  base : Option ProcessedBase
  techniqueCells : Option (List Int)
  onehotCells : Option (List Nat)
  deriving DecidableEq, Repr

/-- The result of `process_recipe_data`: the technique column count, the
(renamed) one-hot ingredient column labels, and the indexed rows. -/
structure ProcessedTable where
  numTechniqueCols : Nat
  ingredientCols : List Col
  rows : List (Nat × ProcContent)
  deriving DecidableEq, Repr

/-- The indexed merged rows surviving `dropna(subset=['techniques'])`:
column-drop the recipe frame, left-join it onto the filtered interactions
(fresh `RangeIndex`), keep the rows whose `techniques` cell is present,
keeping their labels. -/
def survivingMerged (filtered : List Interaction) (recipeCsv : List PPRecipeFull) :
    List (Nat × MergedRow) :=
  let merged0 := leftJoinRecipes filtered (recipeCsv.map dropTokenCols)
  ((List.range merged0.length).zip merged0).filter (fun p => (techniquesCell p.2).isSome)

/-- `process_recipe_data`: merge recipe metadata onto the filtered
interactions, drop rows lacking `techniques`, parse and expand `techniques`
into `technique_i` columns (`astype(int)` raises on the NaN padding that a
ragged list of lists produces), build the one-hot ingredient frame over the
run's ingredient universe, rename its columns via the mapping table, and
concatenate everything along `axis=1`.  Both `pd.concat` calls align the
fresh `RangeIndex` of the expanded frames with the post-`dropna` labels of
the merged frame, so a dropped row shifts every later row's expanded cells
onto other labels. -/
def process_recipe_data (filtered : List Interaction) (recipeCsv : List PPRecipeFull)
    (allIng : List MappingRow) : Except Err ProcessedTable :=
  let merged := survivingMerged filtered recipeCsv
  match parseAllTechniques merged with
  | .error e => .error e
  | .ok tls =>
    if tls.any (fun l => l.length ≠ maxLenI tls) then .error .valueError
    else
      match parseAllIngredients merged with
      | .error e => .error e
      | .ok ils =>
        let univ := ingredientUniverse ils
        let onehotVals := (ingredientRowsOf ils).map (fun row => row.map (fun p => p.2))
        match filterIngredientMappingCols allIng (univ.map Col.id) with
        | .error e => .error e
        | .ok cols' =>
          let m := merged.length
          let outIdx := idxUnion (merged.map (fun p => p.1)) (List.range m)
          .ok ⟨maxLenI tls, cols',
            outIdx.map (fun i =>
              (i, ⟨((merged.find? (fun p => p.1 = i)).map (fun p => mergedToBase p.2)),
                   tls.get? i, onehotVals.get? i⟩))⟩

/-! ## Raw recipe joiner (`process_raw_recipes`) -/

/-- One row of `RAW_recipes.csv` as read. -/
structure RawRecipeFull where
  id : Int
  name : String
  minutes : Int
  contributor_id : Int
  submitted : String
  tags : String
  nutrition : Option String
  n_steps : Int
  steps : String
  description : String
  ingredients : String
  n_ingredients : Int
  deriving DecidableEq, Repr

/-- A raw recipe row after `drop(columns=['contributor_id', 'submitted',
'tags', 'steps', 'description', 'ingredients'])`. -/
structure RawRecipeRow where
  id : Int
  name : String
  minutes : Int
  nutrition : Option String
  n_steps : Int
  n_ingredients : Int
  deriving DecidableEq, Repr

/-- The column drop applied to the raw recipe frame. -/
def dropRawCols (r : RawRecipeFull) : RawRecipeRow :=
  ⟨r.id, r.name, r.minutes, r.nutrition, r.n_steps, r.n_ingredients⟩

/-- The raw-side columns kept after the join drops the duplicate
`id_y`. -/
structure RawKept where
  name : String
  minutes : Int
  nutrition : Option String
  n_steps : Int
  n_ingredients : Int
  deriving DecidableEq, Repr

/-- Dropping `id_y` from a joined right side. -/
def dropIdY (r : RawRecipeRow) : RawKept :=
  ⟨r.name, r.minutes, r.nutrition, r.n_steps, r.n_ingredients⟩

/-- The output of `process_raw_recipes`: processed columns plus the joined
raw recipe columns, re-indexed by the merge's fresh `RangeIndex`. -/
structure JoinedTable where
  numTechniqueCols : Nat
  ingredientCols : List Col
  rows : List (Nat × ProcContent × Option RawKept)
  deriving DecidableEq, Repr

/-- `process_raw_recipes`: drop identifying/free-text columns, keep raw
rows whose id occurs among `processed['recipe_id']` (NaN keys match
nothing), left-join onto the processed frame by `recipe_id = id`, rename
`id_x` back to `id` and drop `id_y`. -/
def process_raw_recipes (rawCsv : List RawRecipeFull) (processed : ProcessedTable) :
    JoinedTable :=
  let raw_recipe_df := rawCsv.map dropRawCols
  let keys := processed.rows.map (fun p => p.2.base.map (fun b => b.recipe_id))
  let filteredRaw := raw_recipe_df.filter (fun r => keys.contains (some r.id))
  let joined := processed.rows.flatMap (fun p =>
    let ms := filteredRaw.filter (fun r => p.2.base.map (fun b => b.recipe_id) = some r.id)
    if ms.isEmpty then [(p.2, (none : Option RawKept))]
    else ms.map (fun r => (p.2, some (dropIdY r))))
  ⟨processed.numTechniqueCols, processed.ingredientCols,
   (List.range joined.length).zip joined⟩

/-! ## Entry point (`main`) -/

/-- The raw-side columns that survive into the final table once the
`nutrition` column is dropped by the nutrition expander. -/
structure RawNoNutr where
  name : String
  minutes : Int
  n_steps : Int
  n_ingredients : Int
  deriving DecidableEq, Repr

/-- Dropping the `nutrition` column from the joined raw columns. -/
def dropNutritionCol (r : RawKept) : RawNoNutr :=
  ⟨r.name, r.minutes, r.n_steps, r.n_ingredients⟩

/-- The input files of one `main()` run. -/
structure PipelineInputs where
  interactions : List RawInteraction
  recipes : List PPRecipeFull
  mapping : List MappingRow
  rawRecipes : List RawRecipeFull

/-- The content written to `final_dataset.csv`. -/
structure FinalOutput where
  numTechniqueCols : Nat
  ingredientCols : List Col
  rows : List (Nat × Option (ProcContent × Option RawNoNutr) × NutritionRow)
  deriving DecidableEq, Repr

/-- `main()`, with its file writes made explicit: the returned list holds
every `to_csv` call performed, in order (the only one in the source is the
final `final_dataset.csv` write; console prints are not writes), and the
second component is the first uncaught exception, if any. -/
def runMain (inp : PipelineInputs) : List (String × FinalOutput) × Option Err :=
  let filtered := filter_interactions inp.interactions
  match process_recipe_data filtered inp.recipes inp.mapping with
  | .error e => ([], some e)
  | .ok processed =>
    let longer := process_raw_recipes inp.rawRecipes processed
    match process_nutrition_column (longer.rows.map (fun r =>
        (r.1, (r.2.1, r.2.2.map dropNutritionCol), r.2.2.bind (fun k => k.nutrition)))) with
    | .error e => ([], some e)
    | .ok outRows =>
      ([("final_dataset.csv", ⟨longer.numTechniqueCols, longer.ingredientCols, outRows⟩)],
       none)

/-- Whether a computation raised an uncaught exception. -/
def isError {ε β : Type} : Except ε β → Bool
  | .error _ => true
  | .ok _ => false

end CreateDataset

deriving instance DecidableEq for Except

namespace CreateDataset

/-! ## Supporting lemmas -/

@[simp] theorem isError_error {ε β : Type} (e : ε) :
    isError (Except.error e : Except ε β) = true := rfl

@[simp] theorem isError_ok {ε β : Type} (v : β) :
    isError (Except.ok v : Except ε β) = false := rfl

theorem parseAllNutrition_ok_of_all {α : Type} : ∀ (l : List (Nat × α × String)),
    (∀ r ∈ l, parseNutrition r.2.2 ≠ none) →
    parseAllNutrition l = .ok (l.map (fun r => (r.1, r.2.1, (parseNutrition r.2.2).getD [])))
  | [], _ => rfl
  | r :: rest, h => by
    have hr := h r (by simp)
    cases hp : parseNutrition r.2.2 with
    | none => exact absurd hp hr
    | some v =>
      have ih := parseAllNutrition_ok_of_all rest (fun x hx => h x (by simp [hx]))
      simp [parseAllNutrition, hp, ih]

theorem parseAllNutrition_error_of_mem {α : Type} : ∀ (l : List (Nat × α × String)),
    (∃ r ∈ l, parseNutrition r.2.2 = none) →
    ∃ e, parseAllNutrition l = .error e := by
  intro l hl
  induction l with
  | nil => simp at hl
  | cons r rest ih =>
    rcases hl with ⟨x, hx, hpx⟩
    rcases List.mem_cons.mp hx with h1 | h2
    · subst h1
      exact ⟨.valueError, by simp [parseAllNutrition, hpx]⟩
    · cases hp : parseNutrition r.2.2 with
      | none => exact ⟨.valueError, by simp [parseAllNutrition, hp]⟩
      | some v =>
        rcases ih ⟨x, h2, hpx⟩ with ⟨e, he⟩
        exact ⟨e, by simp [parseAllNutrition, hp, he]⟩

theorem map_kept_eq_presentCells {α : Type} : ∀ (rows : List (Nat × α × Option String)),
    (rows.filterMap (fun r => r.2.2.map (fun s => (r.1, r.2.1, s)))).map
        (fun r => r.2.2) = presentCells rows
  | [] => rfl
  | r :: rest => by
    cases hs : r.2.2 with
    | none =>
      simp [List.filterMap_cons, presentCells, hs, map_kept_eq_presentCells rest]
    | some s =>
      simpa [List.filterMap_cons, presentCells, hs]
        using map_kept_eq_presentCells rest

theorem filterMap_parse_eq_map_getD : ∀ (cs : List String),
    (∀ s ∈ cs, parseNutrition s ≠ none) →
    cs.filterMap parseNutrition = cs.map (fun s => (parseNutrition s).getD [])
  | [], _ => rfl
  | c :: rest, h => by
    have hc := h c (by simp)
    cases hp : parseNutrition c with
    | none => exact absurd hp hc
    | some v =>
      simp [List.filterMap_cons, hp,
        filterMap_parse_eq_map_getD rest (fun x hx => h x (by simp [hx]))]

theorem parseAllIngredients_error_of_mem : ∀ (l : List (Nat × MergedRow)),
    (∃ p ∈ l, (ingredientIdsCell p.2).bind parseIngredientIds = none) →
    ∃ e, parseAllIngredients l = .error e := by
  intro l hl
  induction l with
  | nil => simp at hl
  | cons p rest ih =>
    rcases hl with ⟨x, hx, hpx⟩
    rcases List.mem_cons.mp hx with h1 | h2
    · subst h1
      cases hc : ingredientIdsCell x.2 with
      | none => exact ⟨.attributeError, by simp [parseAllIngredients, hc]⟩
      | some s =>
        rw [hc] at hpx
        simp only [Option.some_bind] at hpx
        exact ⟨.valueError, by simp [parseAllIngredients, hc, hpx]⟩
    · cases hc : ingredientIdsCell p.2 with
      | none => exact ⟨.attributeError, by simp [parseAllIngredients, hc]⟩
      | some s =>
        cases hp : parseIngredientIds s with
        | none => exact ⟨.valueError, by simp [parseAllIngredients, hc, hp]⟩
        | some v =>
          rcases ih ⟨x, h2, hpx⟩ with ⟨e, he⟩
          exact ⟨e, by simp [parseAllIngredients, hc, hp, he]⟩

theorem mem_dedupFirst : ∀ (seen l : List Int) (x : Int),
    x ∈ dedupFirst seen l ↔ x ∈ l ∧ x ∉ seen
  | seen, [], x => by simp [dedupFirst]
  | seen, a :: l, x => by
    by_cases ha : a ∈ seen
    · rw [dedupFirst, if_pos (by simpa using ha), mem_dedupFirst seen l x]
      constructor
      · rintro ⟨h1, h2⟩
        exact ⟨List.mem_cons_of_mem _ h1, h2⟩
      · rintro ⟨h1, h2⟩
        rcases List.mem_cons.mp h1 with h | h
        · exact absurd (h ▸ ha) h2
        · exact ⟨h, h2⟩
    · rw [dedupFirst, if_neg (by simpa using ha), List.mem_cons,
        mem_dedupFirst (a :: seen) l x]
      constructor
      · rintro (h | ⟨h1, h2⟩)
        · subst h
          exact ⟨List.mem_cons_self x l, ha⟩
        · exact ⟨List.mem_cons_of_mem _ h1, fun hx => h2 (List.mem_cons_of_mem _ hx)⟩
      · rintro ⟨h1, h2⟩
        by_cases hxa : x = a
        · exact Or.inl hxa
        · rcases List.mem_cons.mp h1 with h | h
          · exact absurd h hxa
          · exact Or.inr ⟨h, fun hx => (List.mem_cons.mp hx).elim hxa h2⟩

theorem nodup_dedupFirst : ∀ (seen l : List Int), (dedupFirst seen l).Nodup
  | seen, [] => List.nodup_nil
  | seen, a :: l => by
    by_cases ha : a ∈ seen
    · rw [dedupFirst, if_pos (by simpa using ha)]
      exact nodup_dedupFirst seen l
    · rw [dedupFirst, if_neg (by simpa using ha)]
      refine List.Nodup.cons ?_ (nodup_dedupFirst (a :: seen) l)
      intro hmem
      exact ((mem_dedupFirst (a :: seen) l a).mp hmem).2 (List.mem_cons_self a seen)

theorem mem_firstOccs (l : List Int) (x : Int) : x ∈ firstOccs l ↔ x ∈ l := by
  rw [firstOccs, mem_dedupFirst]
  simp

theorem nodup_firstOccs (l : List Int) : (firstOccs l).Nodup :=
  nodup_dedupFirst [] l

theorem sum_indicator_eq_length_filter (L : List Int) : ∀ (U : List Int),
    (U.map (fun v => if L.contains v then (1 : Nat) else 0)).sum =
      (U.filter (fun v => L.contains v)).length
  | [] => rfl
  | a :: U => by
    rw [List.map_cons, List.filter_cons, List.sum_cons,
      sum_indicator_eq_length_filter L U]
    by_cases ha : L.contains a
    · rw [if_pos ha, if_pos ha, List.length_cons, Nat.add_comm]
    · rw [if_neg ha, if_neg ha, Nat.zero_add]

theorem length_filter_eq_length_firstOccs (U L : List Int)
    (hU : U.Nodup) (hsub : ∀ x ∈ L, x ∈ U) :
    (U.filter (fun v => L.contains v)).length = (firstOccs L).length := by
  have hperm : (U.filter (fun v => L.contains v)).Perm (firstOccs L) := by
    rw [List.perm_ext_iff_of_nodup (hU.filter _) (nodup_firstOccs L)]
    intro a
    rw [List.mem_filter, mem_firstOccs]
    constructor
    · rintro ⟨_, h2⟩
      exact List.mem_of_elem_eq_true h2
    · intro h
      exact ⟨hsub a h, List.elem_eq_true_of_mem h⟩
  exact hperm.length_eq

theorem buildFiltered_ids (allIng : List MappingRow) : ∀ (is : List Int),
    buildFiltered allIng (is.map Col.id) =
      .ok (is.flatMap (fun i => allIng.filter (fun r => r.id = i)))
  | [] => rfl
  | i :: rest => by
    simp [buildFiltered, colKey, buildFiltered_ids allIng rest]

theorem filter_flatMap_blocks (allIng : List MappingRow) (i : Int) : ∀ (is : List Int),
    (is.flatMap (fun j => allIng.filter (fun r => r.id = j))).filter
        (fun r => r.id = i) =
      is.flatMap (fun j => if j = i then allIng.filter (fun r => r.id = i) else [])
  | [] => rfl
  | j :: rest => by
    rw [List.flatMap_cons, List.flatMap_cons, List.filter_append,
      filter_flatMap_blocks allIng i rest]
    congr 1
    by_cases hji : j = i
    · subst hji
      rw [if_pos rfl]
      rw [List.filter_filter]
      apply List.filter_congr
      intro r hr
      simp
    · rw [if_neg hji]
      apply List.filter_eq_nil_iff.mpr
      intro r hr
      have : r.id = j := by
        have := List.of_mem_filter hr
        simpa using this
      simp [this, hji]

theorem flatMap_if_head (A : List MappingRow) (f : MappingRow → String) :
    ∀ (is : List Int) (i : Int), i ∈ is →
    ((is.flatMap (fun j => if j = i then A else [])).map f).head? = (A.map f).head?
  | [], i, h => by simp at h
  | j :: rest, i, h => by
    rw [List.flatMap_cons]
    by_cases hji : j = i
    · subst hji
      rw [if_pos rfl]
      cases hA : A with
      | nil =>
        simp only [List.nil_append]
        have hz : rest.flatMap (fun x => if x = j then ([] : List MappingRow) else []) = [] := by
          clear h
          induction rest with
          | nil => rfl
          | cons b bs ihb =>
            rw [List.flatMap_cons, ihb]
            by_cases hbj : b = j
            · rw [if_pos hbj]; rfl
            · rw [if_neg hbj]; rfl
        rw [hz]
      | cons a A' => simp
    · rw [if_neg hji, List.nil_append]
      have hi : i ∈ rest := by
        rcases List.mem_cons.mp h with h1 | h1
        · exact absurd h1.symm hji
        · exact h1
      exact flatMap_if_head A f rest i hi

theorem lookup_filteredOf (allIng : List MappingRow) (is : List Int) (i : Int)
    (hi : i ∈ is) :
    lookupReplaced (is.flatMap (fun j => allIng.filter (fun r => r.id = j))) i =
      lookupReplaced allIng i := by
  unfold lookupReplaced
  rw [filter_flatMap_blocks]
  exact flatMap_if_head _ _ is i hi

/-- The effect of the whole rename loop on a single column label, given the
set of iterated ids: an id in the set becomes its canonical name, labels
already strings stay put. -/
def renameAllIds (filtered : List MappingRow) (is : List Int) : Col → Col
  | .name s => .name s
  | .id i => if i ∈ is then .name ((lookupReplaced filtered i).getD "") else .id i

theorem renameLoop_ids_ok (filtered : List MappingRow) : ∀ (is : List Int) (cur : List Col),
    (∀ i ∈ is, lookupReplaced filtered i ≠ none) →
    renameLoop filtered (is.map Col.id) cur = .ok (cur.map (renameAllIds filtered is))
  | [], cur, _ => by
    have hid : ∀ x ∈ cur, renameAllIds filtered [] x = x := by
      intro x _
      cases x with
      | id i => simp [renameAllIds]
      | name s => simp [renameAllIds]
    rw [List.map_congr_left hid, List.map_id']
    rfl
  | i :: rest, cur, h => by
    have hi := h i (List.mem_cons_self i rest)
    cases hv : lookupReplaced filtered i with
    | none => exact absurd hv hi
    | some v =>
      rw [List.map_cons, renameLoop, colKey]
      dsimp only
      rw [hv]
      dsimp only
      rw [renameLoop_ids_ok filtered rest _ (fun x hx => h x (List.mem_cons_of_mem _ hx)),
        List.map_map]
      congr 1
      apply List.map_congr_left
      intro x _
      cases x with
      | name s => simp [renameAllIds]
      | id j =>
        by_cases hji : j = i
        · subst hji
          simp [renameAllIds, hv]
        · simp only [Function.comp_apply]
          rw [if_neg (by simp [hji])]
          simp only [renameAllIds]
          by_cases hjr : j ∈ rest
          · rw [if_pos hjr, if_pos (List.mem_cons_of_mem _ hjr)]
          · rw [if_neg hjr, if_neg (by simp [hji, hjr])]

theorem renameLoop_ids_error (filtered : List MappingRow) : ∀ (is : List Int) (cur : List Col),
    (∃ i ∈ is, lookupReplaced filtered i = none) →
    renameLoop filtered (is.map Col.id) cur = .error .indexError
  | [], cur, h => by simp at h
  | i :: rest, cur, h => by
    rw [List.map_cons, renameLoop, colKey]
    dsimp only
    cases hv : lookupReplaced filtered i with
    | none => rfl
    | some v =>
      dsimp only
      rcases h with ⟨x, hx, hlx⟩
      rcases List.mem_cons.mp hx with h1 | h1
      · subst h1
        exact absurd hlx (by rw [hv]; simp)
      · exact renameLoop_ids_error filtered rest _ ⟨x, h1, hlx⟩

theorem filterIngredientMappingCols_ok (allIng : List MappingRow) (is : List Int)
    (h : ∀ i ∈ is, lookupReplaced allIng i ≠ none) :
    filterIngredientMappingCols allIng (is.map Col.id) =
      .ok (is.map (fun i => Col.name ((lookupReplaced allIng i).getD ""))) := by
  unfold filterIngredientMappingCols
  rw [buildFiltered_ids]
  dsimp only
  rw [renameLoop_ids_ok _ is _ (fun i hi => by
    rw [lookup_filteredOf allIng is i hi]; exact h i hi)]
  congr 1
  rw [List.map_map]
  apply List.map_congr_left
  intro i hi
  have hmem : i ∈ is := hi
  simp only [Function.comp_apply, renameAllIds, if_pos hmem,
    lookup_filteredOf allIng is i hmem]

theorem filterIngredientMappingCols_error (allIng : List MappingRow) (is : List Int)
    (h : ∃ i ∈ is, lookupReplaced allIng i = none) :
    filterIngredientMappingCols allIng (is.map Col.id) = .error .indexError := by
  unfold filterIngredientMappingCols
  rw [buildFiltered_ids]
  dsimp only
  apply renameLoop_ids_error
  rcases h with ⟨i, hi, hl⟩
  exact ⟨i, hi, by rw [lookup_filteredOf allIng is i hi]; exact hl⟩

theorem two_le_count_map (f : Int → Col) (v : String) : ∀ (l : List Int) (i j : Int),
    i ≠ j → i ∈ l → j ∈ l → f i = Col.name v → f j = Col.name v →
    2 ≤ (l.map f).count (Col.name v)
  | [], i, _, _, hi, _, _, _ => absurd hi (List.not_mem_nil i)
  | a :: l, i, j, hij, hi, hj, hfi, hfj => by
    by_cases hai : a = i
    · subst hai
      have hjl : j ∈ l := (List.mem_cons.mp hj).resolve_left (fun h => hij h.symm)
      have h1 : 0 < (l.map f).count (Col.name v) :=
        List.count_pos_iff.mpr (hfj ▸ List.mem_map_of_mem f hjl)
      rw [List.map_cons, List.count_cons, hfi, if_pos (by simp)]
      omega
    · by_cases haj : a = j
      · subst haj
        have hil : i ∈ l := (List.mem_cons.mp hi).resolve_left (fun h => hai h.symm)
        have h1 : 0 < (l.map f).count (Col.name v) :=
          List.count_pos_iff.mpr (hfi ▸ List.mem_map_of_mem f hil)
        rw [List.map_cons, List.count_cons, hfj, if_pos (by simp)]
        omega
      · have hil : i ∈ l := (List.mem_cons.mp hi).resolve_left (fun h => hai h.symm)
        have hjl : j ∈ l := (List.mem_cons.mp hj).resolve_left (fun h => haj h.symm)
        have h2 := two_le_count_map f v l i j hij hil hjl hfi hfj
        simp only [List.map_cons, List.count_cons]
        omega

/-! ## Claims -/

/-- C1: `filter_interactions` retains exactly the rows of the input
interaction table whose `recipe_id` is among the top 100 most frequent
recipe ids and whose `user_id` is among the top 30000 most frequent user
ids — both conditions conjoined — and consequently the filtered table never
has more rows than the raw table. -/
theorem C1_filter_interactions_top_and (df : List RawInteraction) :
    (filter_interactions df).length ≤ df.length ∧
    ∀ r : Interaction,
      r ∈ filter_interactions df ↔
        r ∈ df.map dropReviewDate ∧
        r.recipe_id ∈ top_recipe_ids (df.map dropReviewDate) ∧
        r.user_id ∈ top_user_ids (df.map dropReviewDate) := by
  constructor
  · calc (filter_interactions df).length
        ≤ (df.map dropReviewDate).length := List.length_filter_le _ _
      _ = df.length := List.length_map _ _
  · intro r
    simp [filter_interactions, List.mem_filter, and_assoc]

/-- C2 counterexample: an input whose second row's nutrition list parses to
2 floats (not 7) on which `process_nutrition_column` succeeds instead of
failing — `pd.DataFrame` pads the short row with NaN because the widest row
is 7 wide. -/
theorem C2_counterexample_short_row_padded :
    (parseNutrition "[1.0, 2.0]").map List.length = some 2 ∧
    isError (process_nutrition_column
      [((0 : Nat), (0 : Nat), some "[1.0, 2.0, 3.0, 4.0, 5.0, 6.0, 7.0]"),
       (1, 1, some "[1.0, 2.0]")]) = false := by
  exact ⟨by decide, by decide⟩

/-- C2 amended: `process_nutrition_column` fails exactly when some present
nutrition cell does not parse as a float list, or the widest parsed row
differs from 7 columns; a row parsing to fewer than 7 floats while another
reaches 7 is NaN-padded, not rejected. -/
theorem C2_amended_nutrition_error_iff {α : Type}
    (rows : List (Nat × α × Option String)) :
    isError (process_nutrition_column rows) = true ↔
      ((∃ s ∈ presentCells rows, parseNutrition s = none) ∨
       (presentCells rows ≠ [] ∧ (∀ s ∈ presentCells rows, parseNutrition s ≠ none) ∧
        maxLen ((presentCells rows).filterMap parseNutrition) ≠ 7)) := by
  classical
  simp only [process_nutrition_column]
  set kept := rows.filterMap (fun r => r.2.2.map (fun s => (r.1, r.2.1, s))) with hkept
  have hcells : kept.map (fun r => r.2.2) = presentCells rows :=
    map_kept_eq_presentCells rows
  by_cases hall : ∀ s ∈ presentCells rows, parseNutrition s ≠ none
  · have hall' : ∀ r ∈ kept, parseNutrition r.2.2 ≠ none := by
      intro r hr
      exact hall r.2.2 (hcells ▸ List.mem_map_of_mem _ hr)
    have hok := parseAllNutrition_ok_of_all kept hall'
    rw [hok]
    dsimp only
    have hlists : (kept.map (fun r => (r.1, r.2.1, (parseNutrition r.2.2).getD []))).map
        (fun r => r.2.2) = (presentCells rows).filterMap parseNutrition := by
      rw [filterMap_parse_eq_map_getD _ hall, ← hcells]
      simp [List.map_map]
    by_cases hcond : (kept.map (fun r => (r.1, r.2.1, (parseNutrition r.2.2).getD []))).map
        (fun r => r.2.2) ≠ [] ∧
        maxLen ((kept.map (fun r => (r.1, r.2.1, (parseNutrition r.2.2).getD []))).map
          (fun r => r.2.2)) ≠ 7
    · rw [if_pos hcond]
      simp only [isError_error, true_iff]
      refine Or.inr ⟨?_, hall, ?_⟩
      · intro hnil
        rw [← hcells] at hnil
        have hk : kept = [] := List.map_eq_nil_iff.mp hnil
        rw [hk] at hcond
        simp at hcond
      · rw [← hlists]; exact hcond.2
    · rw [if_neg hcond]
      simp only [isError_ok]
      constructor
      · intro h
        exact absurd h Bool.false_ne_true
      · intro hrhs
        exfalso
        apply hcond
        have hne : presentCells rows ≠ [] := by
          rcases hrhs with ⟨s, hs, hps⟩ | ⟨hne, _, _⟩
          · exact absurd hps (hall s hs)
          · exact hne
        have hmax : maxLen ((presentCells rows).filterMap parseNutrition) ≠ 7 := by
          rcases hrhs with ⟨s, hs, hps⟩ | ⟨_, _, hmax⟩
          · exact absurd hps (hall s hs)
          · exact hmax
        refine ⟨?_, by rw [hlists]; exact hmax⟩
        rw [hlists]
        cases hp : presentCells rows with
        | nil => exact absurd hp hne
        | cons a l =>
          have ha : parseNutrition a ≠ none := hall a (by rw [hp]; simp)
          cases hpa : parseNutrition a with
          | none => exact absurd hpa ha
          | some v => simp [List.filterMap_cons, hpa]
  · push_neg at hall
    rcases hall with ⟨s, hs, hps⟩
    have hmem : ∃ r ∈ kept, parseNutrition r.2.2 = none := by
      rw [← hcells] at hs
      rcases List.mem_map.mp hs with ⟨r, hr, hrs⟩
      exact ⟨r, hr, by rw [hrs]; exact hps⟩
    rcases parseAllNutrition_error_of_mem kept hmem with ⟨e, he⟩
    rw [he]
    dsimp only
    simp only [isError_error, true_iff]
    exact Or.inl ⟨s, hs, hps⟩

/-- C3 counterexample: a retained recipe row whose `ingredient_ids` cell is
`"[7, 7]"` — a well-formed list with 2 entries but 1 distinct id.  The
one-hot cells `process_recipe_data` produces for it are `[1]`, summing to 1,
not to 2 = the number of ingredient ids in the original list. -/
theorem C3_counterexample_duplicate_ids :
    parseIngredientIds "[7, 7]" = some [7, 7] ∧
    process_recipe_data [⟨1, 10, 5⟩]
        [⟨10, 0, "nt", "it", "st", some "[1]", some "[7, 7]"⟩] [⟨7, "lettuce"⟩] =
      .ok ⟨1, [Col.name "lettuce"],
        [(0, ⟨some ⟨1, 10, 5, some 10, some 0⟩, some [1], some [1]⟩)]⟩ ∧
    ([1] : List Nat).sum ≠ ([7, 7] : List Int).length :=
  ⟨by decide, by decide, by decide⟩

/-- C3 amended: the one-hot ingredient cells produced for the k-th
surviving row sum to the number of DISTINCT ids in that row's parsed
`ingredient_ids` list (which equals the list's length exactly when the list
has no duplicate id). -/
theorem C3_amended_onehot_sum_distinct (parsed : List (List Int)) (k : Nat) (L : List Int)
    (hk : parsed[k]? = some L) :
    ((ingredientRowsOf parsed)[k]?).map (fun row => (row.map (fun p => p.2)).sum) =
      some (firstOccs L).length := by
  have h1 : (ingredientRowsOf parsed)[k]? =
      some (onehotRow (ingredientUniverse parsed) L) := by
    rw [ingredientRowsOf, List.getElem?_map, hk]
    rfl
  rw [h1]
  simp only [Option.map_some']
  congr 1
  have h2 : (onehotRow (ingredientUniverse parsed) L).map (fun p => p.2) =
      (ingredientUniverse parsed).map (fun v => if L.contains v then (1 : Nat) else 0) := by
    simp [onehotRow, List.map_map]
  rw [h2, sum_indicator_eq_length_filter]
  apply length_filter_eq_length_firstOccs
  · exact nodup_firstOccs _
  · intro x hx
    rw [ingredientUniverse, mem_firstOccs]
    exact List.mem_flatten.mpr ⟨L, List.getElem?_mem hk, hx⟩

/-- Witness for the amended C3 at a concrete input. -/
theorem C3_amended_witness :
    ([[7, 7]] : List (List Int))[0]? = some [7, 7] ∧
    ((ingredientRowsOf [[7, 7]])[0]?).map (fun row => (row.map (fun p => p.2)).sum) =
      some (firstOccs [7, 7]).length :=
  ⟨by decide, C3_amended_onehot_sum_distinct [[7, 7]] 0 [7, 7] (by decide)⟩

/-- C5: on an input whose first merged row lacks `techniques` (and is
dropped) while the second, retained recipe row has techniques
`"[1, 0, 2]"`, `process_recipe_data` gives the retained row NaN
`technique_i` cells and attaches `[1, 0, 2]` to a spurious all-NaN row:
the expanded techniques frame carries a fresh `RangeIndex` which
`pd.concat(axis=1)` aligns against the post-`dropna` labels, so the
claimed assignment `technique_0=1, technique_1=0, technique_2=2` to that
row does not happen. -/
theorem C5_technique_misalignment_eval :
    parseTechniques "[1, 0, 2]" = some [1, 0, 2] ∧
    process_recipe_data [⟨1, 10, 5⟩, ⟨2, 20, 4⟩]
        [⟨20, 0, "nt", "it", "st", some "[1, 0, 2]", some "[7]"⟩] [⟨7, "lettuce"⟩] =
      .ok ⟨3, [Col.name "lettuce"],
        [(0, ⟨none, some [1, 0, 2], some [1]⟩),
         (1, ⟨some ⟨2, 20, 4, some 20, some 0⟩, none, none⟩)]⟩ :=
  ⟨by decide, by decide⟩

/-- C9: `"[]".strip('[]').split(', ')` yields `[""]` and `int("")` raises
`ValueError`, so the empty-list text never parses; consequently any run
whose surviving merged rows contain an `ingredient_ids` cell `"[]"`
terminates `process_recipe_data` with an uncaught error. -/
theorem C9_empty_ingredient_list_aborts :
    parseIngredientIds "[]" = none ∧
    ∀ (filtered : List Interaction) (recipeCsv : List PPRecipeFull)
      (allIng : List MappingRow),
      (∃ p ∈ survivingMerged filtered recipeCsv, ingredientIdsCell p.2 = some "[]") →
      isError (process_recipe_data filtered recipeCsv allIng) = true := by
  constructor
  · decide
  · intro filtered recipeCsv allIng hex
    simp only [process_recipe_data]
    cases ht : parseAllTechniques (survivingMerged filtered recipeCsv) with
    | error e => simp
    | ok tls =>
      dsimp only
      by_cases hrag : tls.any (fun l => l.length ≠ maxLenI tls)
      · rw [if_pos hrag]; simp
      · rw [if_neg hrag]
        have hie : ∃ e, parseAllIngredients (survivingMerged filtered recipeCsv) =
            .error e := by
          apply parseAllIngredients_error_of_mem
          rcases hex with ⟨p, hp, hc⟩
          refine ⟨p, hp, ?_⟩
          rw [hc]
          decide
        rcases hie with ⟨e, he⟩
        rw [he]
        simp

/-- Witness for C9 at a concrete input with `ingredient_ids` `"[]"`. -/
theorem C9_witness :
    (∃ p ∈ survivingMerged [⟨1, 10, 5⟩] [⟨10, 0, "nt", "it", "st", some "[1]", some "[]"⟩],
       ingredientIdsCell p.2 = some "[]") ∧
    isError (process_recipe_data [⟨1, 10, 5⟩]
      [⟨10, 0, "nt", "it", "st", some "[1]", some "[]"⟩] []) = true :=
  ⟨by decide, C9_empty_ingredient_list_aborts.2 _ _ _ (by decide)⟩

/-- C4: when two distinct id columns of the one-hot frame are renamed to
the same canonical `replaced` value, `filter_ingredient_mapping` applies
both renames, returns normally, and the output columns contain that name
(at least) twice — no merge and no error. -/
theorem C4_rename_collision_duplicates (allIng : List MappingRow)
    (store : Nat → List Col) (ref : Nat) (is : List Int) (i j : Int) (v : String)
    (hcols : store ref = is.map Col.id)
    (hall : ∀ x ∈ is, lookupReplaced allIng x ≠ none)
    (hij : i ≠ j) (hi : i ∈ is) (hj : j ∈ is)
    (hvi : lookupReplaced allIng i = some v)
    (hvj : lookupReplaced allIng j = some v) :
    (filter_ingredient_mapping allIng store ref).2 = .ok ref ∧
    2 ≤ ((filter_ingredient_mapping allIng store ref).1 ref).count (Col.name v) := by
  have hcore := filterIngredientMappingCols_ok allIng is hall
  unfold filter_ingredient_mapping
  rw [hcols, hcore]
  dsimp only
  refine ⟨rfl, ?_⟩
  rw [if_pos rfl]
  apply two_le_count_map _ v is i j hij hi hj
  · rw [hvi]; rfl
  · rw [hvj]; rfl

/-- Witness for C4: ids 1 and 2 both mapped to `"salt"`. -/
theorem C4_witness :
    (filter_ingredient_mapping [⟨1, "salt"⟩, ⟨2, "salt"⟩]
        (fun _ => [Col.id 1, Col.id 2]) 0).2 = .ok 0 ∧
    2 ≤ ((filter_ingredient_mapping [⟨1, "salt"⟩, ⟨2, "salt"⟩]
        (fun _ => [Col.id 1, Col.id 2]) 0).1 0).count (Col.name "salt") :=
  C4_rename_collision_duplicates [⟨1, "salt"⟩, ⟨2, "salt"⟩]
    (fun _ => [Col.id 1, Col.id 2]) 0 [1, 2] 1 2 "salt"
    rfl (by decide) (by decide) (by decide) (by decide) (by decide) (by decide)

/-- C7: an id column with no mapping row makes the rename-loop lookup
(`.values[0]`) raise `IndexError` inside `filter_ingredient_mapping`; the
error aborts `process_recipe_data` even when every earlier stage succeeded,
and any `process_recipe_data` error propagates uncaught through `main`,
which then performs no write. -/
theorem C7_unmapped_id_index_error :
    (∀ (allIng : List MappingRow) (store : Nat → List Col) (ref : Nat) (is : List Int),
      store ref = is.map Col.id →
      (∃ i ∈ is, lookupReplaced allIng i = none) →
      (filter_ingredient_mapping allIng store ref).2 = .error .indexError) ∧
    (∀ (filtered : List Interaction) (recipeCsv : List PPRecipeFull)
       (allIng : List MappingRow) (tls ils : List (List Int)),
      parseAllTechniques (survivingMerged filtered recipeCsv) = .ok tls →
      tls.any (fun l => l.length ≠ maxLenI tls) = false →
      parseAllIngredients (survivingMerged filtered recipeCsv) = .ok ils →
      (∃ i ∈ ingredientUniverse ils, lookupReplaced allIng i = none) →
      process_recipe_data filtered recipeCsv allIng = .error .indexError) ∧
    (∀ (inp : PipelineInputs) (e : Err),
      process_recipe_data (filter_interactions inp.interactions) inp.recipes inp.mapping =
        .error e →
      runMain inp = ([], some e)) := by
  refine ⟨?_, ?_, ?_⟩
  · intro allIng store ref is hcols hex
    have hcore := filterIngredientMappingCols_error allIng is hex
    unfold filter_ingredient_mapping
    rw [hcols, hcore]
  · intro filtered recipeCsv allIng tls ils ht hrag hi hex
    simp only [process_recipe_data]
    rw [ht]
    dsimp only
    rw [if_neg (by rw [hrag]; exact Bool.false_ne_true), hi]
    dsimp only
    rw [filterIngredientMappingCols_error allIng _ hex]
  · intro inp e hpe
    simp only [runMain]
    rw [hpe]

/-- Witness for C7: a single one-hot column id 7 with an empty mapping
table, and a full pipeline run on it that terminates with `IndexError` and
writes nothing. -/
theorem C7_witness :
    (filter_ingredient_mapping [] (fun _ => [Col.id 7]) 0).2 = .error .indexError ∧
    runMain ⟨[⟨1, 10, 5, "r", "d"⟩], [⟨10, 0, "nt", "it", "st", some "[1]", some "[7]"⟩],
      [], []⟩ = ([], some .indexError) := by
  constructor
  · exact C7_unmapped_id_index_error.1 [] (fun _ => [Col.id 7]) 0 [7] rfl (by decide)
  · exact C7_unmapped_id_index_error.2.2 _ Err.indexError (by decide)

/-- C8: `main` writes `final_dataset.csv` only as its last step: a run
ending in an uncaught error performs no write at all, and a completed run
performs exactly that one write. -/
theorem C8_write_all_or_nothing (inp : PipelineInputs) :
    ((runMain inp).2.isSome = true → (runMain inp).1 = []) ∧
    ((runMain inp).2 = none →
      ∃ out, (runMain inp).1 = [("final_dataset.csv", out)]) := by
  simp only [runMain]
  cases hp : process_recipe_data (filter_interactions inp.interactions) inp.recipes
      inp.mapping with
  | error e => exact ⟨fun _ => rfl, fun h => by simp at h⟩
  | ok processed =>
    dsimp only
    cases hn : process_nutrition_column
        ((process_raw_recipes inp.rawRecipes processed).rows.map (fun r =>
          (r.1, (r.2.1, r.2.2.map dropNutritionCol), r.2.2.bind (fun k => k.nutrition)))) with
    | error e => exact ⟨fun _ => rfl, fun h => by simp at h⟩
    | ok outRows => exact ⟨fun h => by simp at h, fun _ => ⟨_, rfl⟩⟩

/-- Witness for C8: the failing C7 pipeline input produces an error and an
empty write list. -/
theorem C8_witness :
    (runMain ⟨[⟨1, 10, 5, "r", "d"⟩], [⟨10, 0, "nt", "it", "st", some "[1]", some "[7]"⟩],
      [], []⟩).2.isSome = true ∧
    (runMain ⟨[⟨1, 10, 5, "r", "d"⟩], [⟨10, 0, "nt", "it", "st", some "[1]", some "[7]"⟩],
      [], []⟩).1 = [] :=
  ⟨by decide, (C8_write_all_or_nothing _).1 (by decide)⟩

/-- C10: `filter_ingredient_mapping` renames in place on the caller's
object and returns that same object, not a fresh table: the returned
reference is the argument reference, the store is updated at exactly that
reference, and afterwards the caller's table no longer carries its original
ingredient-id column labels. -/
theorem C10_mutates_callers_frame (allIng : List MappingRow) (store : Nat → List Col)
    (ref : Nat) (is : List Int)
    (hcols : store ref = is.map Col.id)
    (hall : ∀ x ∈ is, lookupReplaced allIng x ≠ none)
    (hne : is ≠ []) :
    (filter_ingredient_mapping allIng store ref).2 = .ok ref ∧
    (filter_ingredient_mapping allIng store ref).1 ref =
      is.map (fun x => Col.name ((lookupReplaced allIng x).getD "")) ∧
    (∀ r, r ≠ ref → (filter_ingredient_mapping allIng store ref).1 r = store r) ∧
    (filter_ingredient_mapping allIng store ref).1 ref ≠ store ref := by
  have hcore := filterIngredientMappingCols_ok allIng is hall
  unfold filter_ingredient_mapping
  rw [hcols, hcore]
  dsimp only
  refine ⟨rfl, by rw [if_pos rfl], fun r hr => by rw [if_neg hr], ?_⟩
  rw [if_pos rfl]
  cases is with
  | nil => exact absurd rfl hne
  | cons a t =>
    intro hcontra
    simp at hcontra

/-- Witness for C10 with a single column id 1 mapped to `"salt"`. -/
theorem C10_witness :
    (filter_ingredient_mapping [⟨1, "salt"⟩] (fun _ => [Col.id 1]) 0).2 = .ok 0 ∧
    (filter_ingredient_mapping [⟨1, "salt"⟩] (fun _ => [Col.id 1]) 0).1 0 =
      [Col.name "salt"] ∧
    (∀ r, r ≠ 0 → (filter_ingredient_mapping [⟨1, "salt"⟩] (fun _ => [Col.id 1]) 0).1 r =
      [Col.id 1]) ∧
    (filter_ingredient_mapping [⟨1, "salt"⟩] (fun _ => [Col.id 1]) 0).1 0 ≠ [Col.id 1] :=
  C10_mutates_callers_frame [⟨1, "salt"⟩] (fun _ => [Col.id 1]) 0 [1]
    rfl (by decide) (by decide)

/-- C6: on a table whose row 0 has a NaN nutrition cell and whose row 1
holds `"[100.0, 20.0, 5.0, 3.0, 10.0, 2.0, 15.0]"`, `process_nutrition_column`
gives row 1 all-NaN nutrition fields and attaches the seven parsed values to
a spurious all-NaN row labelled 0: `dropna` keeps original labels while the
expanded frame is labelled from 0, and `pd.concat(axis=1)` aligns the two. -/
theorem C6_nutrition_misalignment_eval :
    process_nutrition_column
      [((0 : Nat), (0 : Nat), none), (1, 1, some "[100.0, 20.0, 5.0, 3.0, 10.0, 2.0, 15.0]")] =
    Except.ok
      [(0, none, ⟨some 100, some 20, some 5, some 3, some 10, some 2, some 15⟩),
       (1, some 1, nanNutritionRow)] := by
  decide

end CreateDataset
